import Mathlib

/-!
Verification of the victron-helios planning and dispatch engine.

This file gives a shallow embedding of the core of the repository:
the Plan data model (`helios/models.py`), the dwell controller
(`helios/dwell.py`), the planner decision logic (`helios/planner.py`),
the D-Bus executor failure handling (`helios/executor.py`) and the
scheduler job bodies `_recalc_plan` / `_do_control` (`helios/api.py`).

Conventions of the embedding:
- timestamps are integers (seconds since epoch, UTC); Python `datetime`
  arithmetic on whole seconds is exact, and `replace(minute=0, second=0,
  microsecond=0)` is flooring to the hour;
- prices (floats in the source) are embedded as rationals; the decision
  logic only compares, adds, multiplies and takes medians of prices, so
  the rational model reflects the source arithmetic exactly;
- setpoints and watt limits are integers as in the source;
- Python `x or y` on an optional integer returns `y` when `x` is `None`
  or `0` (falsy), which is modelled explicitly by `pyOrInt`;
- effects (D-Bus writes, metric increments) are modelled as a trace of
  `Op` events, and raised exceptions as `Except Unit` results.
-/

namespace Helios

/-- Dispatch actions, from `helios/models.py` (`Action`). -/
inductive Action where
  | CHARGE_FROM_GRID
  | DISCHARGE_TO_LOAD
  | EXPORT_TO_GRID
  | IDLE
deriving DecidableEq, Repr

/-- Core fields of a plan slot, from `helios/models.py` (`PlanSlot`).
The optional energy-flow and cost annotation fields (kWh/EUR estimates
used only for UI graphs) and the diagnostic `reason` string are omitted:
no claim in this development mentions them and they never feed back into
the decision, timing or setpoint fields. -/
structure PlanSlot where
  start : Int
  stop : Int
  action : Action
  target_grid_setpoint_w : Int
deriving DecidableEq, Repr

/-- Plan object, from `helios/models.py` (`Plan`). -/
structure Plan where
  generated_at : Int
  planning_window_seconds : Nat
  slots : List PlanSlot
deriving DecidableEq, Repr

/-- Lookup of the slot containing a timestamp, from `Plan.slot_for`:
first slot with `start <= at < end`, else `None`.  The source iterates
the slot list in order and returns on the first match, which is exactly
`List.find?`.  It is a pure function of the plan (no mutation). -/
def Plan.slot_for (p : Plan) (at_ : Int) : Option PlanSlot :=
  p.slots.find? (fun slot => decide (slot.start ≤ at_) && decide (at_ < slot.stop))

/-- Dwell controller state, from `helios/dwell.py` (`DwellController`).
The Python `dict[Action, int]` of per-action overrides is embedded as a
total function to `Option Int` (`none` models a missing key, mirroring
the `last_action in self.per_action_dwell_seconds` membership test);
`per_action_dwell_seconds = None` is the outer `Option`. -/
structure DwellController where
  minimum_dwell_seconds : Int
  last_action : Option Action
  last_action_at : Option Int
  per_action_dwell_seconds : Option (Action → Option Int)

/-- Decision whether an action change is allowed now, translated from
`DwellController.should_change`. -/
def DwellController.should_change (d : DwellController) (new_action : Action)
    (now : Int) : Bool :=
  match d.last_action with
  | none => true
  | some la =>
    if la = new_action then true
    else
      let required : Int :=
        match d.per_action_dwell_seconds with
        | none => d.minimum_dwell_seconds
        | some m =>
          match m la with
          | none => d.minimum_dwell_seconds
          | some v => max 0 v
      if required ≤ 0 then true
      else
        match d.last_action_at with
        | none => true
        | some t0 => decide (now - t0 ≥ required)

/-- Recording of an adopted action, translated from
`DwellController.note_action`: state is updated only when the action
differs from the current one (Python `!=` between `Optional[Action]`
and `Action` is true when the current action is `None`). -/
def DwellController.note_action (d : DwellController) (action : Action)
    (now : Int) : DwellController :=
  if d.last_action = some action then d
  else { d with last_action := some action, last_action_at := some now }

/-- Settings snapshot, from `helios/config.py` (`HeliosSettings`), with the
fields consumed by the planner, dwell wiring, executor and scheduler job
bodies.  String-valued provider selection fields are kept for the
provider-swap logic of `_recalc_plan`. -/
structure HeliosSettings where
  planning_window_seconds : Nat
  planning_horizon_hours : Nat
  price_hysteresis_eur_per_kwh : ℚ
  buy_price_multiplier : ℚ
  buy_price_fixed_fee_eur_per_kwh : ℚ
  sell_price_multiplier : ℚ
  sell_price_fixed_deduction_eur_per_kwh : ℚ
  grid_sell_enabled : Bool
  grid_import_limit_w : Option Int
  grid_export_limit_w : Option Int
  grid_ramp_w_per_second : Option Int
  battery_charge_limit_w : Option Int
  battery_discharge_limit_w : Option Int
  min_soc_percent : ℚ
  max_soc_percent : ℚ
  reserve_soc_percent : ℚ
  assumed_current_soc_percent : Option ℚ
  dbus_update_interval_seconds : Int
  dbus_reassert_attempts : Nat
  dbus_write_retries : Nat
  price_provider : String
  tibber_token : Option String
  tibber_home_id : Option String

/-- Field constraints enforced by pydantic validation in `HeliosSettings`
(`ge`/`le` bounds and the cross-field model validator), for the fields of
the embedding.  The core may assume every settings object satisfies
these. -/
def ValidSettings (s : HeliosSettings) : Prop :=
  60 ≤ s.planning_window_seconds ∧
  1 ≤ s.planning_horizon_hours ∧ s.planning_horizon_hours ≤ 48 ∧
  0 ≤ s.price_hysteresis_eur_per_kwh ∧
  0 ≤ s.buy_price_multiplier ∧
  0 ≤ s.sell_price_multiplier ∧
  (∀ v, s.grid_import_limit_w = some v → 0 ≤ v) ∧
  (∀ v, s.grid_export_limit_w = some v → 0 ≤ v) ∧
  (∀ v, s.grid_ramp_w_per_second = some v → 1 ≤ v) ∧
  (∀ v, s.battery_charge_limit_w = some v → 0 ≤ v) ∧
  (∀ v, s.battery_discharge_limit_w = some v → 0 ≤ v) ∧
  0 ≤ s.min_soc_percent ∧ s.min_soc_percent ≤ s.max_soc_percent ∧
  s.max_soc_percent ≤ 100 ∧
  s.min_soc_percent ≤ s.reserve_soc_percent ∧
  s.reserve_soc_percent ≤ s.max_soc_percent ∧
  1 ≤ s.dbus_update_interval_seconds

/-- Python `x or default` on an optional integer: the default is used when
`x` is `None` or `0` (both falsy). -/
def pyOrInt (x : Option Int) (default : Int) : Int :=
  match x with
  | none => default
  | some v => if v = 0 then default else v

/-- Decision rule for one planning window, translated from
`Planner._decide_action`.  Returns the `(action, setpoint)` pair. -/
def decide_action (s : HeliosSettings) (price_mid pivot : ℚ) : Action × Int :=
  let import_limit := pyOrInt s.grid_import_limit_w 0
  let export_limit := pyOrInt s.grid_export_limit_w 0
  let battery_charge_limit := pyOrInt s.battery_charge_limit_w import_limit
  let battery_discharge_limit := pyOrInt s.battery_discharge_limit_w export_limit
  let buy_price := price_mid * s.buy_price_multiplier + s.buy_price_fixed_fee_eur_per_kwh
  let sell_price := price_mid * s.sell_price_multiplier - s.sell_price_fixed_deduction_eur_per_kwh
  let hysteresis := s.price_hysteresis_eur_per_kwh
  let cheap := decide (buy_price ≤ pivot - hysteresis)
  let expensive := decide (sell_price ≥ pivot + hysteresis)
  if cheap && decide (import_limit > 0) then
    match s.assumed_current_soc_percent with
    | some soc =>
      if soc ≥ s.max_soc_percent then (Action.IDLE, 0)
      else (Action.CHARGE_FROM_GRID, min import_limit battery_charge_limit)
    | none => (Action.CHARGE_FROM_GRID, min import_limit battery_charge_limit)
  else if s.grid_sell_enabled && expensive && decide (export_limit > 0) then
    match s.assumed_current_soc_percent with
    | some soc =>
      if soc ≤ s.reserve_soc_percent then (Action.IDLE, 0)
      else (Action.EXPORT_TO_GRID, -(min export_limit battery_discharge_limit))
    | none => (Action.EXPORT_TO_GRID, -(min export_limit battery_discharge_limit))
  else (Action.IDLE, 0)

/-- Python `x or default` on an optional float: the default is used when
`x` is `None` or `0.0` (both falsy), mirroring
`self._price_at(price_series, midpoint) or pivot` in `build_plan`. -/
def pyOrRat (x : Option ℚ) (default : ℚ) : ℚ :=
  match x with
  | none => default
  | some v => if v = 0 then default else v

/-- Median of a list of prices, from Python `statistics.median`: sort,
take the middle element for odd length, the mean of the two middle
elements for even length.  `build_plan` only calls it on non-empty input
(the `getD` default is never reached there). -/
def median (l : List ℚ) : ℚ :=
  let sorted := l.mergeSort (fun a b => decide (a ≤ b))
  let n := sorted.length
  if n % 2 = 1 then sorted.getD (n / 2) 0
  else (sorted.getD (n / 2 - 1) 0 + sorted.getD (n / 2) 0) / 2

/-- Nearest price by absolute time distance, from `Planner._price_at`:
Python `min(series, key=...)` returns the first element of minimal key,
which is a left fold replacing the best only on a strictly smaller key. -/
def price_at (series : List (Int × ℚ)) (at_ : ℚ) : Option ℚ :=
  match series with
  | [] => none
  | x :: xs =>
    some (xs.foldl
      (fun best p => if |(p.1 : ℚ) - at_| < |(best.1 : ℚ) - at_| then p else best) x).2

/-- Slot construction loop of `Planner.build_plan` (`while t < end`):
each slice is `[t, min(t + window, end))`, decided at the price nearest
the slice midpoint (falling back to the pivot when the series is empty
or the nearest price is exactly 0.0).  Settings validation in the source
guarantees `window >= 60`; the `0 < window` guard only makes the
recursion total and agrees with the source loop on every valid window. -/
def build_slots (s : HeliosSettings) (series : List (Int × ℚ)) (pivot : ℚ)
    (t endT : Int) : List PlanSlot :=
  if h : t < endT ∧ 0 < (s.planning_window_seconds : Int) then
    let slice_end := min (t + (s.planning_window_seconds : Int)) endT
    let midpoint : ℚ := (t : ℚ) + ((slice_end : ℚ) - (t : ℚ)) / 2
    let price_mid := pyOrRat (price_at series midpoint) pivot
    let ad := decide_action s price_mid pivot
    { start := t, stop := slice_end, action := ad.1, target_grid_setpoint_w := ad.2 } ::
      build_slots s series pivot slice_end endT
  else []
termination_by (endT - t).toNat
decreasing_by
  omega

/-- Plan construction, from `Planner.build_plan`.  When the window evenly
divides one hour the horizon starts at the top of the current hour,
otherwise at `now`; the horizon ends `planning_horizon_hours` later.  The
pivot is the median of the raw input prices (0 when the series is
empty). -/
def build_plan (s : HeliosSettings) (price_series : List (Int × ℚ)) (now : Int) : Plan :=
  let window := s.planning_window_seconds
  let hour_start := now - now % 3600
  let startEnd : Int × Int :=
    if 3600 % window = 0 then
      (hour_start, hour_start + (s.planning_horizon_hours : Int) * 3600)
    else (now, now + (s.planning_horizon_hours : Int) * 3600)
  let prices := price_series.map (fun p => p.2)
  let pivot := if prices.isEmpty then 0 else median prices
  { generated_at := now,
    planning_window_seconds := window,
    slots := build_slots s price_series pivot startEnd.1 startEnd.2 }

/-- Observable side effects of the D-Bus executor and control path:
setpoint writes, metric counter increments, and the fail-safe events of
the `except` handler in `DbusExecutor.apply_setpoint`. -/
inductive Op where
  | writeTarget (v : Int)
  | reassertInc
  | misapplyInc
  | applyFailureInc
  | failsafeAttempt
  | failsafeWrite
deriving DecidableEq, Repr

/-- Environment describing the outcomes of the D-Bus primitives during one
`apply_setpoint` call: whether the n-th bus-connection attempt succeeds,
whether the n-th `SetValue` / properties `Set` write attempt succeeds,
the value produced by the n-th read-back (`none` models a raising read),
the final read-back of the misapply check, and the outcomes of the
connect and write of the fail-safe path itself. -/
structure DbusEnv where
  connectOk : Nat → Bool
  setValueOk : Nat → Bool
  propsSetOk : Nat → Bool
  readback : Nat → Option Int
  finalReadback : Option Int
  failsafeConnectOk : Bool
  failsafeSetOk : Bool
  failsafePropsOk : Bool

/-- Truth of a predicate on some attempt index below `n`: a Python retry
loop over attempts `0 .. n-1` breaking on first success succeeds exactly
when this holds. -/
def anyBefore (f : Nat → Bool) (n : Nat) : Bool :=
  (List.range n).any f

/-- Verify-and-reassert loop of `DbusExecutor.apply_setpoint` (the
`while attempts < max_attempts` loop with its `else` clause).  `i` is the
index of the next read-back, `remaining` the attempts left.  A raising
read (`none`) breaks out; a matching read breaks out; a mismatch counts a
reassert and re-writes.  When the loop exhausts its attempts the `else`
clause re-reads once and counts a misapply on persistent mismatch.  This
loop swallows every exception, so it contributes events but never a
failure. -/
def verify_loop (env : DbusEnv) (target : Int) : Nat → Nat → List Op
  | _, 0 =>
    match env.finalReadback with
    | none => []
    | some v => if v ≠ target then [Op.misapplyInc] else []
  | i, remaining + 1 =>
    match env.readback i with
    | none => []
    | some v =>
      if v = target then []
      else Op.reassertInc :: verify_loop env target (i + 1) remaining

/-- Clamp-and-ramp chain of `DbusExecutor.apply_setpoint` (lines guarded
by `if self.settings is not None`): clamp by grid import/export limits,
then by battery charge/discharge limits in the matching direction, then
rate-limit the change from the previously applied setpoint. -/
def clamp_target (s? : Option HeliosSettings) (last_setpoint : Option Int)
    (target0 : Int) : Int :=
  match s? with
  | none => target0
  | some s =>
    let t1 := match s.grid_import_limit_w with
      | some v => min target0 v
      | none => target0
    let t2 := match s.grid_export_limit_w with
      | some v => max t1 (-v)
      | none => t1
    let t3 := if t2 > 0 then
        match s.battery_charge_limit_w with
        | some v => min t2 v
        | none => t2
      else t2
    let t4 := if t3 < 0 then
        match s.battery_discharge_limit_w with
        | some v => max t3 (-v)
        | none => t3
      else t3
    match s.grid_ramp_w_per_second, last_setpoint with
    | some ramp, some last =>
      let interval := max 1 s.dbus_update_interval_seconds
      let max_delta := max 0 ramp * interval
      let delta := t4 - last
      if |delta| > max_delta then
        last + (if delta > 0 then max_delta else -max_delta)
      else t4
    | some _, none => t4
    | none, _ => t4

/-- Connect / write / verify path of `DbusExecutor.apply_setpoint` (the
inner `try` block): connect with up to `1 + dbus_write_retries` attempts
(raising `RuntimeError` when all fail), write with up to
`dbus_write_retries` retries where each attempt tries `SetValue` then the
properties `Set` fallback (re-raising when the final attempt fails), then
the verify-and-reassert loop.  Returns the event trace and whether an
exception escaped this block. -/
def dbus_write_verify (s? : Option HeliosSettings) (env : DbusEnv)
    (target : Int) : List Op × Except Unit Unit :=
  let retries := match s? with
    | some s => s.dbus_write_retries
    | none => 0
  if ¬ anyBefore env.connectOk (1 + retries) then ([], Except.error ())
  else if ¬ anyBefore (fun k => env.setValueOk k || env.propsSetOk k) (retries + 1) then
    ([], Except.error ())
  else
    let reasserts := match s? with
      | some s => s.dbus_reassert_attempts
      | none => 0
    (Op.writeTarget target :: verify_loop env target 0 reasserts, Except.ok ())

/-- Mutable fields of a `DbusExecutor` dataclass instance: the borrowed
dwell controller, the settings snapshot, and `_last_setpoint_w`. -/
structure DbusExecutorState where
  dwell : Option DwellController
  settings : Option HeliosSettings
  last_setpoint_w : Option Int

/-- Events of the best-effort fail-safe in the outer `except` handler:
the attempt itself always happens; an actual write of 0 reaches the
actuator only when the connect of the fail-safe itself and one of its two write
paths succeed, and any of its failures is swallowed. -/
def failsafe_ops (env : DbusEnv) : List Op :=
  Op.failsafeAttempt ::
    (if env.failsafeConnectOk && (env.failsafeSetOk || env.failsafePropsOk) then
      [Op.failsafeWrite] else [])

/-- Full `DbusExecutor.apply_setpoint`: resolve the slot (no-op when the
time is outside plan coverage), consult and update the dwell controller,
clamp and ramp, run the write/verify path; on its failure increment the
apply-failure counter, attempt the fail-safe write of setpoint 0, and
re-raise the failure.  `_last_setpoint_w` is updated only on success. -/
def DbusExecutor_apply_setpoint (es : DbusExecutorState) (env : DbusEnv)
    (when : Int) (plan : Plan) : DbusExecutorState × List Op × Except Unit Unit :=
  match plan.slot_for when with
  | none => (es, [], Except.ok ())
  | some slot =>
    let gate_ok := match es.dwell with
      | some dw => dw.should_change slot.action when
      | none => true
    if !gate_ok then (es, [], Except.ok ())
    else
      let es1 := { es with
        dwell := es.dwell.map (fun dw => dw.note_action slot.action when) }
      let target := clamp_target es.settings es.last_setpoint_w slot.target_grid_setpoint_w
      match dbus_write_verify es.settings env target with
      | (ops, Except.ok _) =>
        ({ es1 with last_setpoint_w := some target }, ops, Except.ok ())
      | (ops, Except.error e) =>
        (es1, ops ++ Op.applyFailureInc :: failsafe_ops env, Except.error e)

/-- Price provider instances as held in shared state, from
`helios/providers.py` via `_select_price_provider`. -/
inductive ProviderKind where
  | stub
  | tibber (access_token : String) (home_id : Option String)
deriving DecidableEq, Repr

/-- Python truthiness of an optional string (`bool(x)`): false for `None`
and for the empty string. -/
def pyStrTruthy (x : Option String) : Bool :=
  match x with
  | none => false
  | some s => !s.isEmpty

/-- Provider selection, from `_select_price_provider` in `helios/api.py`. -/
def select_price_provider (s : HeliosSettings) : ProviderKind :=
  if s.price_provider = "tibber" && pyStrTruthy s.tibber_token then
    ProviderKind.tibber (s.tibber_token.getD "") s.tibber_home_id
  else ProviderKind.stub

/-- Shared mutable state fields touched by the scheduler job bodies, from
`helios/state.py` (`HeliosState`).  The dwell controller is owned by the
shared state and borrowed by the executor; the embedding stores the one
instance inside the executor state (`executor.dwell`). -/
structure HeliosState where
  settings : HeliosSettings
  price_provider : Option ProviderKind
  latest_plan : Option Plan
  last_recalc_at : Option Int
  last_control_at : Option Int
  automation_paused : Bool
  executor : DbusExecutorState

/-- Provider-staleness test of `_recalc_plan` (the `needs_new`
computation): a new provider is selected when none is cached, when the
cached kind does not match the desired kind, or when the desired Tibber
token differs from the cached one. -/
def needs_new_provider (s : HeliosSettings) (current : Option ProviderKind) : Bool :=
  let desired_is_tibber := s.price_provider = "tibber" && pyStrTruthy s.tibber_token
  match current with
  | none => true
  | some ProviderKind.stub => desired_is_tibber
  | some (ProviderKind.tibber tok _) =>
    if desired_is_tibber then
      match s.tibber_token with
      | some t => tok ≠ t
      | none => true
    else true

/-- Outcome of the price fetch performed by `_recalc_plan`: either the
hourly price series or a raised provider exception. -/
structure RecalcEnv where
  prices : Except Unit (List (Int × ℚ))

/-- Plan recalculation job body, from `_recalc_plan` in `helios/api.py`:
snapshot settings and select the provider under the lock, fetch prices
outside the lock (exactly one `get_prices` call — the returned `Nat`
counts them), build the plan, and publish `latest_plan` and
`last_recalc_at` under the lock.  A raised fetch error propagates before
anything is published.  The optional forecast fetches are omitted: they
happen after the price fetch and only feed the omitted flow/cost
annotations. -/
def recalc_plan (st : HeliosState) (now : Int) (env : RecalcEnv) :
    HeliosState × Nat × Except Unit Unit :=
  let s := st.settings
  let st1 := if needs_new_provider s st.price_provider then
      { st with price_provider := some (select_price_provider s) }
    else st
  match env.prices with
  | Except.error e => (st1, 1, Except.error e)
  | Except.ok series =>
    let plan := build_plan s series now
    ({ st1 with latest_plan := some plan, last_recalc_at := some now }, 1, Except.ok ())

/-- Control tick job body, from `_do_control` in `helios/api.py`,
parametrised by the `apply_setpoint` capability of the executor: record
`last_control_at`, skip actuation when paused or when no plan exists,
otherwise invoke the executor.  `_do_control` has no exception handler of
its own, so the executor result is returned unchanged. -/
def do_control
    (apply : DbusExecutorState → Int → Plan → DbusExecutorState × List Op × Except Unit Unit)
    (st : HeliosState) (now : Int) : HeliosState × List Op × Except Unit Unit :=
  let st1 := { st with last_control_at := some now }
  if st.automation_paused then (st1, [], Except.ok ())
  else
    match st.latest_plan with
    | none => (st1, [], Except.ok ())
    | some plan =>
      let r := apply st.executor now plan
      ({ st1 with executor := r.1 }, r.2.1, r.2.2)

/-- Decision rule as worded by the specification: the configured grid
limits with `0 if unset`, and the battery charge limit defaulting
to `import_limit` if unset (symmetrically for discharge/export) — i.e. the
default applies only to a missing value, not to a configured value of
zero.  This definition follows the spec text, to be compared with
`decide_action`, which is translated from the source. -/
def decide_action_spec_unset_default (s : HeliosSettings) (price_mid pivot : ℚ) :
    Action × Int :=
  let import_limit := s.grid_import_limit_w.getD 0
  let export_limit := s.grid_export_limit_w.getD 0
  let battery_charge_limit := s.battery_charge_limit_w.getD import_limit
  let battery_discharge_limit := s.battery_discharge_limit_w.getD export_limit
  let buy_price := price_mid * s.buy_price_multiplier + s.buy_price_fixed_fee_eur_per_kwh
  let sell_price := price_mid * s.sell_price_multiplier - s.sell_price_fixed_deduction_eur_per_kwh
  let hysteresis := s.price_hysteresis_eur_per_kwh
  let cheap := decide (buy_price ≤ pivot - hysteresis)
  let expensive := decide (sell_price ≥ pivot + hysteresis)
  if cheap && decide (import_limit > 0) then
    match s.assumed_current_soc_percent with
    | some soc =>
      if soc ≥ s.max_soc_percent then (Action.IDLE, 0)
      else (Action.CHARGE_FROM_GRID, min import_limit battery_charge_limit)
    | none => (Action.CHARGE_FROM_GRID, min import_limit battery_charge_limit)
  else if s.grid_sell_enabled && expensive && decide (export_limit > 0) then
    match s.assumed_current_soc_percent with
    | some soc =>
      if soc ≤ s.reserve_soc_percent then (Action.IDLE, 0)
      else (Action.EXPORT_TO_GRID, -(min export_limit battery_discharge_limit))
    | none => (Action.EXPORT_TO_GRID, -(min export_limit battery_discharge_limit))
  else (Action.IDLE, 0)

/-- Decision rule as worded by the specification, amended in one point:
the battery charge limit defaults to `import_limit` when it is unset or
configured as `0` (symmetrically for discharge/export), matching Python
falsiness of `0` in `battery_charge_limit_w or import_limit`. -/
def decide_action_spec (s : HeliosSettings) (price_mid pivot : ℚ) : Action × Int :=
  let import_limit := s.grid_import_limit_w.getD 0
  let export_limit := s.grid_export_limit_w.getD 0
  let battery_charge_limit := pyOrInt s.battery_charge_limit_w import_limit
  let battery_discharge_limit := pyOrInt s.battery_discharge_limit_w export_limit
  let buy_price := price_mid * s.buy_price_multiplier + s.buy_price_fixed_fee_eur_per_kwh
  let sell_price := price_mid * s.sell_price_multiplier - s.sell_price_fixed_deduction_eur_per_kwh
  let hysteresis := s.price_hysteresis_eur_per_kwh
  let cheap := decide (buy_price ≤ pivot - hysteresis)
  let expensive := decide (sell_price ≥ pivot + hysteresis)
  if cheap && decide (import_limit > 0) then
    match s.assumed_current_soc_percent with
    | some soc =>
      if soc ≥ s.max_soc_percent then (Action.IDLE, 0)
      else (Action.CHARGE_FROM_GRID, min import_limit battery_charge_limit)
    | none => (Action.CHARGE_FROM_GRID, min import_limit battery_charge_limit)
  else if s.grid_sell_enabled && expensive && decide (export_limit > 0) then
    match s.assumed_current_soc_percent with
    | some soc =>
      if soc ≤ s.reserve_soc_percent then (Action.IDLE, 0)
      else (Action.EXPORT_TO_GRID, -(min export_limit battery_discharge_limit))
    | none => (Action.EXPORT_TO_GRID, -(min export_limit battery_discharge_limit))
  else (Action.IDLE, 0)

/-- Membership of a timestamp in the half-open slot interval `[start, stop)`. -/
def SlotContains (sl : PlanSlot) (t : Int) : Prop :=
  sl.start ≤ t ∧ t < sl.stop

instance (sl : PlanSlot) (t : Int) : Decidable (SlotContains sl t) := by
  unfold SlotContains
  infer_instance

/-- Pairwise non-overlap of slots: no timestamp lies in two distinct
list positions. -/
def NonOverlapping (slots : List PlanSlot) : Prop :=
  List.Pairwise (fun a b => ∀ t : Int, ¬(SlotContains a t ∧ SlotContains b t)) slots

/-- Exact contiguous coverage of `[a, b)` by a slot list: each slot starts
where the previous one ended (the first at `a`), is non-empty, stays
inside the range, and the last one ends exactly at `b`.  This encodes
sortedness, contiguity and non-overlap in one inductive predicate. -/
def Covers : Int → Int → List PlanSlot → Prop
  | a, b, [] => a = b
  | a, b, sl :: rest => sl.start = a ∧ a < sl.stop ∧ sl.stop ≤ b ∧ Covers sl.stop b rest

/-- Default-like settings snapshot used as a concrete witness input:
900 s windows, 24 h horizon, 0.02 hysteresis, import limit 1500 W,
validated field values throughout. -/
def s0 : HeliosSettings :=
  { planning_window_seconds := 900, planning_horizon_hours := 24,
    price_hysteresis_eur_per_kwh := 2/100, buy_price_multiplier := 1,
    buy_price_fixed_fee_eur_per_kwh := 0, sell_price_multiplier := 1,
    sell_price_fixed_deduction_eur_per_kwh := 0, grid_sell_enabled := false,
    grid_import_limit_w := some 1500, grid_export_limit_w := none,
    grid_ramp_w_per_second := none, battery_charge_limit_w := none,
    battery_discharge_limit_w := none, min_soc_percent := 10,
    max_soc_percent := 95, reserve_soc_percent := 40,
    assumed_current_soc_percent := none, dbus_update_interval_seconds := 10,
    dbus_reassert_attempts := 2, dbus_write_retries := 2,
    price_provider := "stub", tibber_token := none, tibber_home_id := none }

lemma s0_valid : ValidSettings s0 := by
  refine ⟨?_, ?_, ?_, ?_, ?_, ?_, ?_, ?_, ?_, ?_, ?_, ?_, ?_, ?_, ?_, ?_, ?_⟩ <;>
    simp [s0, ValidSettings] <;> norm_num

/-- Single concrete plan slot used by witnesses: charge at 1500 W over
`[0, 900)`. -/
def slot0 : PlanSlot :=
  { start := 0, stop := 900, action := Action.CHARGE_FROM_GRID,
    target_grid_setpoint_w := 1500 }

/-- Concrete one-slot plan used by witnesses. -/
def plan0 : Plan :=
  { generated_at := 0, planning_window_seconds := 900, slots := [slot0] }

/-- Fresh dwell controller used by witnesses (no action recorded yet). -/
def dwell0 : DwellController :=
  { minimum_dwell_seconds := 0, last_action := none, last_action_at := none,
    per_action_dwell_seconds := none }

/-- Concrete executor state used by witnesses. -/
def es0 : DbusExecutorState :=
  { dwell := some dwell0, settings := some s0, last_setpoint_w := none }

/-- Environment in which every bus-connection attempt fails (and hence the
write/verify path raises), while the fail-safe path succeeds. -/
def env_fail : DbusEnv :=
  { connectOk := fun _ => false, setValueOk := fun _ => false,
    propsSetOk := fun _ => false, readback := fun _ => none,
    finalReadback := none, failsafeConnectOk := true, failsafeSetOk := true,
    failsafePropsOk := true }

/-- Concrete running shared state (not paused, plan available). -/
def st_run : HeliosState :=
  { settings := s0, price_provider := none, latest_plan := some plan0,
    last_recalc_at := none, last_control_at := none,
    automation_paused := false, executor := es0 }

/-- Concrete paused shared state. -/
def st_paused : HeliosState :=
  { st_run with automation_paused := true }

/-- C9: `note_action(action, now)` leaves `last_action` and
`last_action_at` unchanged when `action` equals the current
`last_action` (a repeated action never resets the dwell timer), and
updates exactly those two fields when it differs. -/
theorem C9_note_action_updates_only_on_change
    (d : DwellController) (a : Action) (now : Int) :
    (d.last_action = some a → d.note_action a now = d) ∧
    (d.last_action ≠ some a →
      d.note_action a now =
        { d with last_action := some a, last_action_at := some now }) := by
  constructor <;> intro h <;> simp [DwellController.note_action, h]

theorem C9_witness :
    DwellController.note_action
      ⟨300, some Action.IDLE, some 0, none⟩ Action.IDLE 5 =
      ⟨300, some Action.IDLE, some 0, none⟩ ∧
    DwellController.note_action
      ⟨300, some Action.IDLE, some 0, none⟩ Action.CHARGE_FROM_GRID 5 =
      ⟨300, some Action.CHARGE_FROM_GRID, some 5, none⟩ :=
  ⟨(C9_note_action_updates_only_on_change ⟨300, some Action.IDLE, some 0, none⟩
      Action.IDLE 5).1 rfl,
   (C9_note_action_updates_only_on_change ⟨300, some Action.IDLE, some 0, none⟩
      Action.CHARGE_FROM_GRID 5).2 (by simp)⟩

/-- C8: a control tick on a paused state records `last_control_at = now`
and changes nothing else — in particular the executor (with its dwell
controller) and `latest_plan` are untouched, no executor apply runs (the
result does not depend on the apply capability at all), and no effects
are emitted. -/
theorem C8_do_control_paused_frame
    (apply : DbusExecutorState → Int → Plan → DbusExecutorState × List Op × Except Unit Unit)
    (st : HeliosState) (now : Int) (h : st.automation_paused = true) :
    do_control apply st now =
      ({ st with last_control_at := some now }, [], Except.ok ()) := by
  simp [do_control, h]

theorem C8_witness :
    do_control (fun es _ _ => (es, [], Except.ok ())) st_paused 100 =
      ({ st_paused with last_control_at := some 100 }, [], Except.ok ()) :=
  C8_do_control_paused_frame (fun es _ _ => (es, [], Except.ok ())) st_paused 100 rfl

/-- C4: `_recalc_plan` calls the provider method `get_prices` exactly once (no
internal retry), and when that fetch raises, the error propagates before
anything is published: `latest_plan` and `last_recalc_at` keep their
previous values. -/
theorem C4_recalc_fetch_failure_retains_plan
    (st : HeliosState) (now : Int) (env : RecalcEnv) :
    (recalc_plan st now env).2.1 = 1 ∧
    (env.prices = Except.error () →
      (recalc_plan st now env).1.latest_plan = st.latest_plan ∧
      (recalc_plan st now env).1.last_recalc_at = st.last_recalc_at ∧
      (recalc_plan st now env).2.2 = Except.error ()) := by
  unfold recalc_plan
  constructor
  · cases h : env.prices <;> simp [h]
  · intro herr
    simp [herr]
    split <;> simp

theorem C4_witness :
    (recalc_plan st_run 100 { prices := Except.error () }).2.1 = 1 ∧
    (recalc_plan st_run 100 { prices := Except.error () }).1.latest_plan = some plan0 ∧
    (recalc_plan st_run 100 { prices := Except.error () }).2.2 = Except.error () := by
  refine ⟨(C4_recalc_fetch_failure_retains_plan st_run 100 { prices := Except.error () }).1,
    ?_, ?_⟩
  · have h := ((C4_recalc_fetch_failure_retains_plan st_run 100
      { prices := Except.error () }).2 rfl).1
    rw [h]
    rfl
  · exact ((C4_recalc_fetch_failure_retains_plan st_run 100
      { prices := Except.error () }).2 rfl).2.2

lemma pyOrInt_nonneg {x : Option Int} {d : Int} (hx : ∀ v, x = some v → 0 ≤ v)
    (hd : 0 ≤ d) : 0 ≤ pyOrInt x d := by
  cases x with
  | none => exact hd
  | some v =>
    by_cases hv : v = 0
    · simp [pyOrInt, hv, hd]
    · simpa [pyOrInt, hv] using hx v rfl

lemma pyOrInt_pos {x : Option Int} {d : Int} (hx : ∀ v, x = some v → 0 ≤ v)
    (hd : 0 < d) : 0 < pyOrInt x d := by
  cases x with
  | none => exact hd
  | some v =>
    by_cases hv : v = 0
    · simp [pyOrInt, hv, hd]
    · have := hx v rfl
      simp only [pyOrInt, hv, if_false]
      omega

lemma pyOrInt_getD_zero (x : Option Int) : pyOrInt x 0 = x.getD 0 := by
  cases x with
  | none => rfl
  | some v => by_cases hv : v = 0 <;> simp [pyOrInt, hv]

/-- Case analysis of `_decide_action`: every result is either the charge
pair with a positive effective import limit, the export pair with a
positive effective export limit, or the idle pair. -/
lemma decide_action_cases (s : HeliosSettings) (p piv : ℚ) :
    (decide_action s p piv = (Action.CHARGE_FROM_GRID,
        min (pyOrInt s.grid_import_limit_w 0)
          (pyOrInt s.battery_charge_limit_w (pyOrInt s.grid_import_limit_w 0))) ∧
      0 < pyOrInt s.grid_import_limit_w 0) ∨
    (decide_action s p piv = (Action.EXPORT_TO_GRID,
        -min (pyOrInt s.grid_export_limit_w 0)
          (pyOrInt s.battery_discharge_limit_w (pyOrInt s.grid_export_limit_w 0))) ∧
      0 < pyOrInt s.grid_export_limit_w 0) ∨
    decide_action s p piv = (Action.IDLE, 0) := by
  simp only [decide_action]
  split
  next hcond =>
    simp only [Bool.and_eq_true, decide_eq_true_iff] at hcond
    split
    · split
      · right; right; rfl
      · left; exact ⟨rfl, hcond.2⟩
    · left; exact ⟨rfl, hcond.2⟩
  next =>
    split
    next hcond2 =>
      simp only [Bool.and_eq_true, decide_eq_true_iff] at hcond2
      split
      · split
        · right; right; rfl
        · right; left; exact ⟨rfl, hcond2.2⟩
      · right; left; exact ⟨rfl, hcond2.2⟩
    next => right; right; rfl

/-- C10: in `_decide_action` a configured battery charge limit of 0 is
treated exactly like an unset one — the decision equals the one with the
limit removed, and a charge decision then carries the full effective
grid import limit as its setpoint (symmetrically for the discharge limit and
export). -/
theorem C10_zero_battery_limit_falls_back (s : HeliosSettings) (p piv : ℚ) :
    (s.battery_charge_limit_w = some 0 →
      decide_action s p piv =
        decide_action { s with battery_charge_limit_w := none } p piv ∧
      ((decide_action s p piv).1 = Action.CHARGE_FROM_GRID →
        (decide_action s p piv).2 = pyOrInt s.grid_import_limit_w 0)) ∧
    (s.battery_discharge_limit_w = some 0 →
      decide_action s p piv =
        decide_action { s with battery_discharge_limit_w := none } p piv ∧
      ((decide_action s p piv).1 = Action.EXPORT_TO_GRID →
        (decide_action s p piv).2 = -pyOrInt s.grid_export_limit_w 0)) := by
  constructor
  · intro h
    refine ⟨by simp [decide_action, h, pyOrInt], ?_⟩
    intro hact
    rcases decide_action_cases s p piv with ⟨heq, hil⟩ | ⟨heq, hel⟩ | heq
    · rw [heq]; simp [h, pyOrInt]
    · rw [heq] at hact; simp at hact
    · rw [heq] at hact; simp at hact
  · intro h
    refine ⟨by simp [decide_action, h, pyOrInt], ?_⟩
    intro hact
    rcases decide_action_cases s p piv with ⟨heq, hil⟩ | ⟨heq, hel⟩ | heq
    · rw [heq] at hact; simp at hact
    · rw [heq]; simp [h, pyOrInt]
    · rw [heq] at hact; simp at hact

theorem C10_witness :
    decide_action { s0 with battery_charge_limit_w := some 0 } (1/10) (1/5) =
      decide_action { s0 with battery_charge_limit_w := none } (1/10) (1/5) ∧
    (decide_action { s0 with battery_charge_limit_w := some 0 } (1/10) (1/5)).2 = 1500 := by
  have h := (C10_zero_battery_limit_falls_back
    { s0 with battery_charge_limit_w := some 0 } (1/10) (1/5)).1 rfl
  refine ⟨h.1, ?_⟩
  have h2 := h.2 (by simp [decide_action, s0, pyOrInt]; norm_num)
  rw [h2]
  rfl

/-- C2, amended: `_decide_action` follows the decision rule of the spec with
the battery charge limit defaulting to the import limit when it is unset
or configured as zero (symmetrically for discharge/export), and for
validated settings a charge decision always has a strictly positive
setpoint. -/
theorem C2_decide_action_follows_spec (s : HeliosSettings) (p piv : ℚ) :
    decide_action s p piv = decide_action_spec s p piv ∧
    (ValidSettings s → (decide_action s p piv).1 = Action.CHARGE_FROM_GRID →
      0 < (decide_action s p piv).2) := by
  constructor
  · simp only [decide_action, decide_action_spec, pyOrInt_getD_zero]
  · intro hs hact
    obtain ⟨-, -, -, -, -, -, himp, hexp, -, hbc, hbd, -⟩ := hs
    rcases decide_action_cases s p piv with ⟨heq, hil⟩ | ⟨heq, hel⟩ | heq
    · rw [heq]
      exact lt_min hil (pyOrInt_pos hbc hil)
    · rw [heq] at hact; simp at hact
    · rw [heq] at hact; simp at hact

/-- C2, counterexample to the claim as stated: with a validated snapshot
whose configured battery charge limit is exactly 0 (and import limit
1500), the source decision differs from the spec-worded rule in which the
default applies only to an unset limit: the code charges at 1500 W while
the spec-worded rule yields a setpoint of `min(1500, 0) = 0`. -/
theorem C2_counterexample :
    ValidSettings { s0 with battery_charge_limit_w := some 0 } ∧
    decide_action { s0 with battery_charge_limit_w := some 0 } (1/10) (1/5) ≠
      decide_action_spec_unset_default
        { s0 with battery_charge_limit_w := some 0 } (1/10) (1/5) := by
  constructor
  · refine ⟨?_, ?_, ?_, ?_, ?_, ?_, ?_, ?_, ?_, ?_, ?_, ?_, ?_, ?_, ?_, ?_, ?_⟩ <;>
      simp [s0, ValidSettings] <;> norm_num
  · have h1 : decide_action { s0 with battery_charge_limit_w := some 0 } (1/10) (1/5) =
        (Action.CHARGE_FROM_GRID, 1500) := by
      simp [decide_action, s0, pyOrInt]; norm_num
    have h2 : decide_action_spec_unset_default
        { s0 with battery_charge_limit_w := some 0 } (1/10) (1/5) =
        (Action.CHARGE_FROM_GRID, 0) := by
      simp [decide_action_spec_unset_default, s0]; norm_num
    rw [h1, h2]
    simp

theorem C2_witness :
    decide_action s0 (1/10) (1/5) = decide_action_spec s0 (1/10) (1/5) ∧
    0 < (decide_action s0 (1/10) (1/5)).2 :=
  ⟨(C2_decide_action_follows_spec s0 (1/10) (1/5)).1,
   (C2_decide_action_follows_spec s0 (1/10) (1/5)).2 s0_valid
     (by simp [decide_action, s0, pyOrInt]; norm_num)⟩

/-- Computation of `should_change` for a state that has just noted a new
action `A` at `t0` (coming from a different previous action), queried for
a different action `B`: it reduces to the dwell-requirement threshold
test. -/
lemma should_change_noted (d0 : DwellController) (A B : Action) (t0 t : Int)
    (hprev : d0.last_action ≠ some A) (hBA : B ≠ A) (req : Int)
    (hreq : (match d0.per_action_dwell_seconds with
      | none => d0.minimum_dwell_seconds
      | some m =>
        match m A with
        | none => d0.minimum_dwell_seconds
        | some v => max 0 v) = req) :
    (d0.note_action A t0).should_change B t =
      (if req ≤ 0 then true else decide (t - t0 ≥ req)) := by
  have hd : d0.note_action A t0 =
      { d0 with last_action := some A, last_action_at := some t0 } := by
    simp [DwellController.note_action, hprev]
  rw [hd]
  simp only [DwellController.should_change]
  rw [if_neg (fun h => hBA h.symm)]
  rw [hreq]

/-- C5: after `note_action(A, t0)` from a different prior action, with the
global minimum dwell equal to `D` and the per-action override for `A`
either absent or equal to `D`, a change to `B ≠ A` is refused at every
`t0 < t < t0 + D` and allowed at every `t ≥ t0 + D`, while re-applying
`A` itself is always allowed. -/
theorem C5_dwell_gating (d0 : DwellController) (A B : Action) (t0 D : Int)
    (hmin : d0.minimum_dwell_seconds = D)
    (hover : d0.per_action_dwell_seconds = none ∨
      ∃ m, d0.per_action_dwell_seconds = some m ∧ (m A = none ∨ m A = some D))
    (hprev : d0.last_action ≠ some A) (hBA : B ≠ A) :
    (∀ t : Int, t0 < t → t < t0 + D →
      (d0.note_action A t0).should_change B t = false) ∧
    (∀ t : Int, t0 + D ≤ t →
      (d0.note_action A t0).should_change B t = true) ∧
    (∀ t : Int, (d0.note_action A t0).should_change A t = true) := by
  have hself : ∀ t : Int, (d0.note_action A t0).should_change A t = true := by
    intro t
    have hd : d0.note_action A t0 =
        { d0 with last_action := some A, last_action_at := some t0 } := by
      simp [DwellController.note_action, hprev]
    rw [hd]
    simp [DwellController.should_change]
  have hreq : ∃ req : Int,
      (match d0.per_action_dwell_seconds with
        | none => d0.minimum_dwell_seconds
        | some m =>
          match m A with
          | none => d0.minimum_dwell_seconds
          | some v => max 0 v) = req ∧ (req = D ∨ req = max 0 D) := by
    rcases hover with hnone | ⟨m, hm, hmA | hmA⟩
    · exact ⟨D, by simp [hnone, hmin], Or.inl rfl⟩
    · exact ⟨D, by simp [hm, hmA, hmin], Or.inl rfl⟩
    · exact ⟨max 0 D, by simp [hm, hmA], Or.inr rfl⟩
  obtain ⟨req, hr, hcase⟩ := hreq
  refine ⟨?_, ?_, hself⟩
  · intro t h1 h2
    rw [should_change_noted d0 A B t0 t hprev hBA req hr]
    clear hr
    have hD : 0 < D := by omega
    have hreqD : req = D := by rcases hcase with h | h <;> omega
    rw [if_neg (by omega)]
    simp only [decide_eq_false_iff_not]
    omega
  · intro t h
    rw [should_change_noted d0 A B t0 t hprev hBA req hr]
    clear hr
    by_cases h0 : req ≤ 0
    · rw [if_pos h0]
    · rw [if_neg h0]
      simp only [ge_iff_le, decide_eq_true_eq]
      rcases hcase with hc | hc <;> omega

theorem C5_witness :
    (DwellController.note_action ⟨300, some Action.IDLE, some 0, none⟩
      Action.CHARGE_FROM_GRID 1000).should_change Action.EXPORT_TO_GRID 1060 = false ∧
    (DwellController.note_action ⟨300, some Action.IDLE, some 0, none⟩
      Action.CHARGE_FROM_GRID 1000).should_change Action.EXPORT_TO_GRID 1301 = true ∧
    (DwellController.note_action ⟨300, some Action.IDLE, some 0, none⟩
      Action.CHARGE_FROM_GRID 1000).should_change Action.CHARGE_FROM_GRID 999 = true :=
  have T := C5_dwell_gating ⟨300, some Action.IDLE, some 0, none⟩
    Action.CHARGE_FROM_GRID Action.EXPORT_TO_GRID 1000 300 rfl (Or.inl rfl)
    (by simp) (by simp)
  ⟨T.1 1060 (by norm_num) (by norm_num), T.2.1 1301 (by norm_num), T.2.2 999⟩

lemma find_slot_of_mem (slots : List PlanSlot) (t : Int)
    (hno : List.Pairwise (fun a b => ∀ x : Int, ¬(SlotContains a x ∧ SlotContains b x)) slots) :
    ∀ sl ∈ slots, SlotContains sl t →
      slots.find? (fun u => decide (u.start ≤ t) && decide (t < u.stop)) = some sl := by
  induction slots with
  | nil => simp
  | cons hd tl ih =>
    intro sl hmem hc
    rcases List.mem_cons.1 hmem with rfl | htl
    · rw [List.find?_cons_of_pos]
      simp [SlotContains] at hc
      simp [hc.1, hc.2]
    · have hhd : ¬ SlotContains hd t :=
        fun hhdc => (List.pairwise_cons.1 hno).1 sl htl t ⟨hhdc, hc⟩
      rw [List.find?_cons_of_neg]
      · exact ih (List.pairwise_cons.1 hno).2 sl htl hc
      · simp only [SlotContains, not_and] at hhd
        simp only [Bool.and_eq_true, decide_eq_true_eq, not_and]
        exact fun h1 => hhd h1

lemma find_slot_none (slots : List PlanSlot) (t : Int)
    (h : ∀ sl ∈ slots, ¬ SlotContains sl t) :
    slots.find? (fun u => decide (u.start ≤ t) && decide (t < u.stop)) = none := by
  rw [List.find?_eq_none]
  intro x hx
  have hnx := h x hx
  simp only [SlotContains, not_and] at hnx
  simp only [Bool.and_eq_true, decide_eq_true_eq, not_and]
  exact fun h1 => hnx h1

/-- C6: on a plan with pairwise non-overlapping slots, `slot_for`
returns the (necessarily unique) slot whose `[start, stop)` interval
contains the timestamp, and `None` when no slot contains it — in
particular when the slot list is empty.  `slot_for` is a pure function of
the plan, so the plan is never mutated. -/
theorem C6_slot_for_lookup (p : Plan) (t : Int) (hno : NonOverlapping p.slots) :
    (∀ sl ∈ p.slots, SlotContains sl t → p.slot_for t = some sl) ∧
    ((∀ sl ∈ p.slots, ¬ SlotContains sl t) → p.slot_for t = none) :=
  ⟨fun sl hm hc => find_slot_of_mem p.slots t hno sl hm hc,
   fun h => find_slot_none p.slots t h⟩

theorem C6_witness :
    Plan.slot_for plan0 100 = some slot0 ∧ Plan.slot_for plan0 2000 = none :=
  ⟨(C6_slot_for_lookup plan0 100 (by simp [NonOverlapping, plan0])).1 slot0
      (by simp [plan0]) (by constructor <;> norm_num [slot0]),
   (C6_slot_for_lookup plan0 2000 (by simp [NonOverlapping, plan0])).2
      (by intro sl hm
          simp [plan0] at hm
          subst hm
          intro hc
          have := hc.2
          norm_num [slot0] at this)⟩

/-- Start of the planning horizon chosen by `build_plan`: the top of the
current hour when the window evenly divides one hour, otherwise `now`. -/
def plan_start (s : HeliosSettings) (now : Int) : Int :=
  if 3600 % s.planning_window_seconds = 0 then now - now % 3600 else now

lemma build_plan_slots_eq (s : HeliosSettings) (series : List (Int × ℚ)) (now : Int) :
    ∃ piv : ℚ, (build_plan s series now).slots =
      build_slots s series piv (plan_start s now)
        (plan_start s now + (s.planning_horizon_hours : Int) * 3600) := by
  refine ⟨if (series.map (fun p => p.2)).isEmpty then 0
    else median (series.map (fun p => p.2)), ?_⟩
  by_cases hc : 3600 % s.planning_window_seconds = 0 <;>
    simp [build_plan, plan_start, hc]

lemma build_slots_covers (s : HeliosSettings) (series : List (Int × ℚ)) (pivot : ℚ)
    (hw : 0 < (s.planning_window_seconds : Int)) :
    ∀ n : Nat, ∀ t endT : Int, (endT - t).toNat = n → t ≤ endT →
      Covers t endT (build_slots s series pivot t endT) := by
  intro n
  induction n using Nat.strong_induction_on with
  | _ n ih =>
    intro t endT hn hle
    unfold build_slots
    split
    next hcond =>
      obtain ⟨hlt, -⟩ := hcond
      dsimp only [Covers]
      refine ⟨rfl, ?_, ?_, ?_⟩
      · omega
      · omega
      · exact ih ((endT - min (t + (s.planning_window_seconds : Int)) endT).toNat)
          (by omega) _ endT rfl (by omega)
    next hcond =>
      have hnlt : ¬ t < endT := fun hlt => hcond ⟨hlt, hw⟩
      have ht : t = endT := le_antisymm hle (not_lt.1 hnlt)
      simp [Covers, ht]

lemma covers_mem_iff : ∀ {slots : List PlanSlot} {a b : Int}, Covers a b slots →
    ∀ x : Int, (∃ sl ∈ slots, SlotContains sl x) ↔ (a ≤ x ∧ x < b) := by
  intro slots
  induction slots with
  | nil =>
    intro a b h x
    have hab : a = b := h
    subst hab
    simp
  | cons sl rest ih =>
    intro a b h x
    obtain ⟨h1, h2, h3, h4⟩ := h
    have hrest := ih h4 x
    constructor
    · rintro ⟨u, hu, hc⟩
      rcases List.mem_cons.1 hu with rfl | hur
      · obtain ⟨hc1, hc2⟩ := hc
        constructor <;> omega
      · have hx := hrest.1 ⟨u, hur, hc⟩
        constructor <;> omega
    · rintro ⟨hax, hxb⟩
      by_cases hx : x < sl.stop
      · exact ⟨sl, List.mem_cons_self sl rest, ⟨by omega, hx⟩⟩
      · obtain ⟨u, hu, hc⟩ := hrest.2 ⟨by omega, hxb⟩
        exact ⟨u, List.mem_cons_of_mem sl hu, hc⟩

lemma build_slots_length_dvd (s : HeliosSettings) (series : List (Int × ℚ)) (pivot : ℚ)
    (hw : 0 < (s.planning_window_seconds : Int)) :
    ∀ n : Nat, ∀ t endT : Int, (endT - t).toNat = n → t ≤ endT →
      ((s.planning_window_seconds : Int) ∣ (endT - t)) →
      (build_slots s series pivot t endT).length * s.planning_window_seconds
        = (endT - t).toNat := by
  intro n
  induction n using Nat.strong_induction_on with
  | _ n ih =>
    intro t endT hn hle hdvd
    unfold build_slots
    split
    next hcond =>
      obtain ⟨hlt, -⟩ := hcond
      have hge : (s.planning_window_seconds : Int) ≤ endT - t :=
        Int.le_of_dvd (by omega) hdvd
      have hmin : min (t + (s.planning_window_seconds : Int)) endT =
          t + (s.planning_window_seconds : Int) := by omega
      rw [hmin]
      have hdvd2 : (s.planning_window_seconds : Int) ∣
          (endT - (t + (s.planning_window_seconds : Int))) := by
        have heq : endT - (t + (s.planning_window_seconds : Int)) =
            (endT - t) - (s.planning_window_seconds : Int) := by ring
        rw [heq]
        exact dvd_sub hdvd dvd_rfl
      have hrec := ih ((endT - (t + (s.planning_window_seconds : Int))).toNat)
        (by omega) (t + (s.planning_window_seconds : Int)) endT rfl (by omega) hdvd2
      simp only [List.length_cons]
      rw [Nat.succ_mul, hrec]
      omega
    next hcond =>
      have hnlt : ¬ t < endT := fun hlt => hcond ⟨hlt, hw⟩
      have ht : t = endT := le_antisymm hle (not_lt.1 hnlt)
      simp [ht]

/-- C3: the slots of `build_plan` exactly cover the half-open horizon
`[start, start + horizon)` contiguously, in ascending order and without
gaps or overlaps (the `Covers` predicate), where `start` is the top of
the current hour when `3600 % window == 0` and `now` otherwise; every
timestamp lies in a slot exactly when it lies in the horizon; and when
the window evenly divides the horizon the number of slots is exactly
`horizon_seconds / window_seconds` (the value of the ceiling in that
case). -/
theorem C3_build_plan_coverage (s : HeliosSettings) (series : List (Int × ℚ))
    (now : Int) (hs : ValidSettings s) :
    Covers (plan_start s now)
      (plan_start s now + (s.planning_horizon_hours : Int) * 3600)
      (build_plan s series now).slots ∧
    (∀ x : Int, (∃ sl ∈ (build_plan s series now).slots, SlotContains sl x) ↔
      (plan_start s now ≤ x ∧
        x < plan_start s now + (s.planning_horizon_hours : Int) * 3600)) ∧
    (s.planning_window_seconds ∣ s.planning_horizon_hours * 3600 →
      (build_plan s series now).slots.length =
        s.planning_horizon_hours * 3600 / s.planning_window_seconds) := by
  obtain ⟨h60, hhor, -⟩ := hs
  have hw : 0 < s.planning_window_seconds := by omega
  have hwI : 0 < (s.planning_window_seconds : Int) := by exact_mod_cast hw
  have hhorI : 1 ≤ (s.planning_horizon_hours : Int) := by exact_mod_cast hhor
  obtain ⟨piv, hp⟩ := build_plan_slots_eq s series now
  rw [hp]
  have hle : plan_start s now ≤
      plan_start s now + (s.planning_horizon_hours : Int) * 3600 := by omega
  have hcov := build_slots_covers s series piv hwI _ (plan_start s now)
    (plan_start s now + (s.planning_horizon_hours : Int) * 3600) rfl hle
  refine ⟨hcov, fun x => covers_mem_iff hcov x, fun hdvd => ?_⟩
  have hspan : plan_start s now + (s.planning_horizon_hours : Int) * 3600 -
      plan_start s now = ((s.planning_horizon_hours * 3600 : Nat) : Int) := by
    push_cast
    ring
  have hdvdI : (s.planning_window_seconds : Int) ∣
      (plan_start s now + (s.planning_horizon_hours : Int) * 3600 - plan_start s now) := by
    rw [hspan]
    exact_mod_cast hdvd
  have hlen := build_slots_length_dvd s series piv hwI _ (plan_start s now)
    (plan_start s now + (s.planning_horizon_hours : Int) * 3600) rfl hle hdvdI
  rw [hspan, Int.toNat_natCast] at hlen
  exact (Nat.div_eq_of_eq_mul_right hw
    (by rw [← hlen]; exact Nat.mul_comm _ _)).symm

theorem C3_witness :
    (build_plan s0 [] 0).slots.length = 96 ∧
    Covers 0 86400 (build_plan s0 [] 0).slots := by
  have T := C3_build_plan_coverage s0 [] 0 s0_valid
  constructor
  · have hl := T.2.2 (by norm_num [s0])
    rw [hl]
    norm_num [s0]
  · have hc := T.1
    have hps : plan_start s0 0 = 0 := by norm_num [plan_start, s0]
    have h24 : (s0.planning_horizon_hours : Int) = 24 := by norm_num [s0]
    rw [hps, h24] at hc
    norm_num at hc
    exact hc

lemma build_slots_mem_decide (s : HeliosSettings) (series : List (Int × ℚ)) (pivot : ℚ) :
    ∀ n : Nat, ∀ t endT : Int, (endT - t).toNat = n →
      ∀ sl ∈ build_slots s series pivot t endT,
        ∃ pm : ℚ, (sl.action, sl.target_grid_setpoint_w) = decide_action s pm pivot := by
  intro n
  induction n using Nat.strong_induction_on with
  | _ n ih =>
    intro t endT hn sl hmem
    unfold build_slots at hmem
    split at hmem
    next hcond =>
      obtain ⟨hlt, hwpos⟩ := hcond
      rcases List.mem_cons.1 hmem with rfl | htl
      · exact ⟨_, rfl⟩
      · exact ih ((endT - min (t + (s.planning_window_seconds : Int)) endT).toNat)
          (by omega) _ endT rfl sl htl
    next => simp at hmem

/-- C7: every slot produced by `build_plan` has a setpoint whose sign is
consistent with its action: a charge slot has a non-negative setpoint, an
export slot a non-positive one, and an idle slot a setpoint of exactly
zero. -/
theorem C7_setpoint_sign_consistency (s : HeliosSettings) (series : List (Int × ℚ))
    (now : Int) (hs : ValidSettings s) :
    ∀ sl ∈ (build_plan s series now).slots,
      (sl.action = Action.CHARGE_FROM_GRID → 0 ≤ sl.target_grid_setpoint_w) ∧
      (sl.action = Action.EXPORT_TO_GRID → sl.target_grid_setpoint_w ≤ 0) ∧
      (sl.action = Action.IDLE → sl.target_grid_setpoint_w = 0) := by
  intro sl hmem
  obtain ⟨-, -, -, -, -, -, himp, hexp, -, hbc, hbd, -⟩ := hs
  obtain ⟨piv, hp⟩ := build_plan_slots_eq s series now
  rw [hp] at hmem
  obtain ⟨pm, hpm⟩ := build_slots_mem_decide s series piv _ (plan_start s now) _ rfl sl hmem
  have h0il : 0 ≤ pyOrInt s.grid_import_limit_w 0 := pyOrInt_nonneg himp le_rfl
  have h0el : 0 ≤ pyOrInt s.grid_export_limit_w 0 := pyOrInt_nonneg hexp le_rfl
  rcases decide_action_cases s pm piv with ⟨heq, -⟩ | ⟨heq, -⟩ | heq
  · rw [heq] at hpm
    obtain ⟨ha, hv⟩ := Prod.mk.injEq _ _ _ _ ▸ hpm
    refine ⟨fun _ => ?_, fun hx => ?_, fun hx => ?_⟩
    · rw [hv]
      exact le_min h0il (pyOrInt_nonneg hbc h0il)
    · rw [ha] at hx
      exact absurd hx (by simp)
    · rw [ha] at hx
      exact absurd hx (by simp)
  · rw [heq] at hpm
    obtain ⟨ha, hv⟩ := Prod.mk.injEq _ _ _ _ ▸ hpm
    refine ⟨fun hx => ?_, fun _ => ?_, fun hx => ?_⟩
    · rw [ha] at hx
      exact absurd hx (by simp)
    · rw [hv]
      exact neg_nonpos_of_nonneg (le_min h0el (pyOrInt_nonneg hbd h0el))
    · rw [ha] at hx
      exact absurd hx (by simp)
  · rw [heq] at hpm
    obtain ⟨ha, hv⟩ := Prod.mk.injEq _ _ _ _ ▸ hpm
    refine ⟨fun hx => ?_, fun hx => ?_, fun _ => hv⟩
    · rw [ha] at hx
      exact absurd hx (by simp)
    · rw [ha] at hx
      exact absurd hx (by simp)

/-- Minimal settings snapshot for single-slot plans: one 3600 s window
over a one-hour horizon. -/
def s1 : HeliosSettings :=
  { s0 with planning_window_seconds := 3600, planning_horizon_hours := 1 }

lemma s1_valid : ValidSettings s1 := by
  refine ⟨?_, ?_, ?_, ?_, ?_, ?_, ?_, ?_, ?_, ?_, ?_, ?_, ?_, ?_, ?_, ?_, ?_⟩ <;>
    simp [s1, s0, ValidSettings] <;> norm_num

lemma build_plan_s1_eval :
    (build_plan s1 [] 0).slots = [⟨0, 3600, Action.IDLE, 0⟩] := by
  have h1 : build_slots s1 [] 0 3600 3600 = [] := by
    unfold build_slots
    norm_num
  norm_num [s1, s0] at h1
  unfold build_plan build_slots
  norm_num [s1, s0, price_at, pyOrRat, decide_action, pyOrInt, median, h1]

theorem C7_witness :
    ((⟨0, 3600, Action.IDLE, 0⟩ : PlanSlot).action = Action.CHARGE_FROM_GRID →
      0 ≤ (⟨0, 3600, Action.IDLE, 0⟩ : PlanSlot).target_grid_setpoint_w) ∧
    ((⟨0, 3600, Action.IDLE, 0⟩ : PlanSlot).action = Action.EXPORT_TO_GRID →
      (⟨0, 3600, Action.IDLE, 0⟩ : PlanSlot).target_grid_setpoint_w ≤ 0) ∧
    ((⟨0, 3600, Action.IDLE, 0⟩ : PlanSlot).action = Action.IDLE →
      (⟨0, 3600, Action.IDLE, 0⟩ : PlanSlot).target_grid_setpoint_w = 0) :=
  C7_setpoint_sign_consistency s1 [] 0 s1_valid ⟨0, 3600, Action.IDLE, 0⟩
    (by simp [build_plan_s1_eval])

/-- Shape of the executor result: either the call ends without raising,
or it ends with an error whose trace ends in the apply-failure counter
increment followed by the fail-safe events. -/
lemma apply_setpoint_shape (es : DbusExecutorState) (env : DbusEnv)
    (when : Int) (plan : Plan) :
    (DbusExecutor_apply_setpoint es env when plan).2.2 = Except.ok () ∨
    (∃ es1 ops e, DbusExecutor_apply_setpoint es env when plan =
      (es1, ops ++ Op.applyFailureInc :: failsafe_ops env, Except.error e)) := by
  unfold DbusExecutor_apply_setpoint
  cases plan.slot_for when with
  | none => left; rfl
  | some slot =>
    dsimp only
    cases hg : (match es.dwell with
      | some dw => dw.should_change slot.action when
      | none => true) with
    | false =>
      left
      rfl
    | true =>
      rcases hdwv : dbus_write_verify es.settings env
        (clamp_target es.settings es.last_setpoint_w slot.target_grid_setpoint_w)
        with ⟨ops, res⟩
      cases res with
      | ok u => left; rfl
      | error e => right; exact ⟨_, ops, e, rfl⟩

/-- C1, amended: whenever the write/verify path of
`DbusExecutor.apply_setpoint` fails, the apply-failure counter is
incremented and the best-effort fail-safe (write of setpoint 0) is
attempted — but the failure is then re-raised, and `_do_control`, which
has no handler, propagates the executor result unchanged (containment
is left to the scheduler framework above it). -/
theorem C1_failsafe_attempted_and_error_propagates
    (es : DbusExecutorState) (env : DbusEnv) (when : Int) (plan : Plan)
    (st : HeliosState) (now : Int) :
    ((DbusExecutor_apply_setpoint es env when plan).2.2 = Except.error () →
      Op.failsafeAttempt ∈ (DbusExecutor_apply_setpoint es env when plan).2.1 ∧
      Op.applyFailureInc ∈ (DbusExecutor_apply_setpoint es env when plan).2.1) ∧
    (st.automation_paused = false → st.latest_plan = some plan →
      (do_control (fun e w p => DbusExecutor_apply_setpoint e env w p) st now).2.2 =
        (DbusExecutor_apply_setpoint st.executor env now plan).2.2) := by
  constructor
  · intro herr
    rcases apply_setpoint_shape es env when plan with hok | ⟨es1, ops, e, hr⟩
    · rw [hok] at herr
      exact absurd herr (by simp)
    · rw [hr]
      constructor
      · simp [failsafe_ops]
      · simp
  · intro hp hplan
    simp [do_control, hp, hplan]

/-- C1, counterexample to the claim as stated: in a concrete state (not
paused, plan available, dwell permitting) with an environment in which
every bus-connection attempt fails, `_do_control` itself ends with the
raised error — it does not complete without raising. -/
theorem C1_counterexample :
    (do_control (fun e w p => DbusExecutor_apply_setpoint e env_fail w p)
      st_run 100).2.2 = Except.error () := by
  rfl

theorem C1_witness :
    Op.failsafeAttempt ∈ (DbusExecutor_apply_setpoint es0 env_fail 100 plan0).2.1 ∧
    (do_control (fun e w p => DbusExecutor_apply_setpoint e env_fail w p)
        st_run 100).2.2 =
      (DbusExecutor_apply_setpoint st_run.executor env_fail 100 plan0).2.2 :=
  ⟨((C1_failsafe_attempted_and_error_propagates es0 env_fail 100 plan0 st_run 100).1
      (by rfl)).1,
   (C1_failsafe_attempted_and_error_propagates es0 env_fail 100 plan0 st_run 100).2
      rfl rfl⟩

end Helios
